import Mathlib

/-!
# OpenCycle admin analytics layer — shallow embedding

This file embeds the SQL analytics/admin migration of the OpenCycle
repository (`admin_settings` / `admin_logs` tables, row-level-security
policies, and the four `SECURITY DEFINER` functions
`log_admin_action`, `get_platform_analytics`, `get_user_growth_data`,
`get_category_distribution`) and proves properties of it.

Modelling conventions:
* A `timestamptz` is an integer count of seconds; a `date` is an integer
  day number.  `t::date` is floor division by 86400 (`dateOf`), and a
  `date` coerces to the timestamp of its midnight (`midnight`).  Every
  predicate in the source compares timestamps only against midnights, so
  this model is exact.
* `CURRENT_DATE` is passed explicitly as a `today : Int` parameter.
* SQL `numeric` values are `ℚ`; `ROUND(x, 2)` is `round2` (round half
  away from zero, as `numeric` rounding does in PostgreSQL).
* A division whose evaluation PostgreSQL could abort with
  `division_by_zero` is modelled in `Except`, so that "the query raises"
  is distinguishable from "the query returns rows".
* `uuid`-typed arguments are received over the RPC boundary as strings
  and must pass the input cast; a string that is not a valid UUID aborts
  the call before the function body runs.
-/

/-- Seconds per calendar day; a `date` day number `d` covers timestamps
`[86400*d, 86400*(d+1))`. -/
def secondsPerDay : Int := 86400

/-- Day number of timestamp `t`, the SQL cast of a timestamp to date
(floor division, exact for negative timestamps as well). -/
def dateOf (t : Int) : Int := t / secondsPerDay

/-- Midnight timestamp of day `d`: the value of `d::timestamptz`. -/
def midnight (d : Int) : Int := secondsPerDay * d

/-- Row of `public.users` (the attributes the analytics layer reads). -/
structure UserRow where
  id : Nat
  email : String
  created_at : Int
deriving Repr, DecidableEq

/-- Row of `public.items` (the attributes the analytics layer reads). -/
structure ItemRow where
  id : Nat
  category : String
  is_available : Bool
  created_at : Int
deriving Repr, DecidableEq

/-- Row of `public.item_views`. -/
structure ItemViewRow where
  id : Nat
  user_id : Nat
  created_at : Int
deriving Repr, DecidableEq

/-- Row of `public.favorites`. -/
structure FavoriteRow where
  id : Nat
  created_at : Int
deriving Repr, DecidableEq

/-- Row of `public.messages`. -/
structure MessageRow where
  id : Nat
deriving Repr, DecidableEq

/-- Row of `public.reports`. -/
structure ReportRow where
  id : Nat
  status : String
  created_at : Int
deriving Repr, DecidableEq

/-- Row of `public.admin_settings`. -/
structure AdminSettingRow where
  key : String
  value : String
  description : Option String
deriving Repr, DecidableEq

/-- Row of `public.admin_logs`.  `target_id` keeps the canonical string
form of the stored `uuid`. -/
structure AdminLogRow where
  admin_id : Option Nat
  action : String
  target_type : Option String
  target_id : Option String
  details : Option String
  ip_address : Option String
  user_agent : Option String
deriving Repr, DecidableEq

/-- The database state read and written by the admin/analytics layer. -/
structure DB where
  users : List UserRow
  items : List ItemRow
  item_views : List ItemViewRow
  favorites : List FavoriteRow
  messages : List MessageRow
  reports : List ReportRow
  admin_settings : List AdminSettingRow
  admin_logs : List AdminLogRow
deriving Repr, DecidableEq

/-! ## `get_user_growth_data` -/

/-- The date series produced by generate_series over timestamps with a
one-day step, cast to dates: day numbers `start`, `start+1`, ...,
`stop`; empty when `start > stop`. -/
def generateSeriesDates (start stop : Int) : List Int :=
  (List.range (stop - start + 1).toNat).map (fun (i : Nat) => start + (i : Int))

/-- The `daily_users` CTE read off at day `d`, after the `LEFT JOIN` and
`COALESCE(du.new_users, 0)`: the number of users with
`created_at` at or after the midnight of the window start whose
`created_at::date` is `d`.  `start` is the day number of the window
start `CURRENT_DATE - days_back`. -/
def dailyNewUsers (users : List UserRow) (start d : Int) : Int :=
  (users.countP fun u =>
    decide (midnight start ≤ u.created_at) && decide (dateOf u.created_at = d) : Nat)

/-- One output row of `get_user_growth_data`. -/
structure GrowthRow where
  date : Int
  new_users : Int
  cumulative_users : Int
deriving Repr, DecidableEq

/-- The final `SELECT` of `get_user_growth_data`: walk the date series in
ascending order keeping the running sum
`SUM(COALESCE(new_users,0)) OVER (ORDER BY ds.date)`. -/
def runningRows (f : Int → Int) : List Int → Int → List GrowthRow
  | [], _ => []
  | d :: ds, acc => ⟨d, f d, acc + f d⟩ :: runningRows f ds (acc + f d)

/-- Embedding of `public.get_user_growth_data(days_back)`, evaluated
with `CURRENT_DATE = today`. -/
def get_user_growth_data (db : DB) (today : Int) (days_back : Int) : List GrowthRow :=
  let start := today - days_back
  runningRows (dailyNewUsers db.users start) (generateSeriesDates start today) 0

/-! ## `get_category_distribution` -/

/-- The rows of `public.items` with `is_available = true`. -/
def availableItems (db : DB) : List ItemRow :=
  db.items.filter (·.is_available)

/-- The distinct categories appearing among available items (the grouping
keys of the `category_counts` CTE). -/
def availableCategories (db : DB) : List String :=
  ((availableItems db).map (·.category)).dedup

/-- Count of available items in category `c` (the per-group count of
the category_counts CTE). -/
def categoryItemCount (db : DB) (c : String) : Nat :=
  (availableItems db).countP (·.category == c)

/-- The `category_counts` CTE: one `(category, item_count)` pair per
distinct category among available items. -/
def category_counts (db : DB) : List (String × Nat) :=
  (availableCategories db).map (fun c => (c, categoryItemCount db c))

/-- SQL `numeric` division: raises `division_by_zero` on a zero
denominator instead of returning a value. -/
def qdiv (a b : ℚ) : Except String ℚ :=
  if b = 0 then .error "division_by_zero" else .ok (a / b)

/-- PostgreSQL `ROUND(x, 2)` on `numeric`: round half away from zero to
two decimal places. -/
def round2 (q : ℚ) : ℚ :=
  if 0 ≤ q then ((⌊q * 100 + 1/2⌋ : ℤ) : ℚ) / 100
  else -(((⌊-q * 100 + 1/2⌋ : ℤ) : ℚ) / 100)

/-- One output row of `get_category_distribution`. -/
structure CategoryRow where
  category : String
  item_count : Nat
  percentage : ℚ
deriving Repr, DecidableEq

/-- The projection `ROUND((item_count / total) * 100, 2)` evaluated per
row of `category_counts`; a zero `total` raises on the first row. -/
def pctRows (total : ℚ) : List (String × Nat) → Except String (List CategoryRow)
  | [] => .ok []
  | p :: rest =>
    match qdiv (p.2 : ℚ) total with
    | .error e => .error e
    | .ok r =>
      match pctRows total rest with
      | .error e => .error e
      | .ok rs => .ok (⟨p.1, p.2, round2 (r * 100)⟩ :: rs)

/-- The ORDER BY item_count DESC clause as a boolean precedence test. -/
def byCountDesc (a b : CategoryRow) : Bool :=
  b.item_count ≤ a.item_count

/-- Embedding of `public.get_category_distribution()`: group available items by
category, attach the percentage of the total, order by count
descending. -/
def get_category_distribution (db : DB) : Except String (List CategoryRow) :=
  match pctRows ((((category_counts db).map Prod.snd).sum : ℕ) : ℚ) (category_counts db) with
  | .error e => .error e
  | .ok rows => .ok (rows.mergeSort byCountDesc)

/-! ## `get_platform_analytics` -/

/-- The single output row of `get_platform_analytics` (`bigint`
counters). -/
structure AnalyticsRow where
  total_users : Int
  total_items : Int
  total_views : Int
  total_favorites : Int
  total_messages : Int
  total_reports : Int
  active_users_today : Int
  new_users_today : Int
  new_items_today : Int
  pending_reports : Int
deriving Repr, DecidableEq

/-- The count of distinct user ids among item views recorded since the
start of the current day. -/
def activeUsersToday (db : DB) (today : Int) : Nat :=
  (((db.item_views.filter fun v => decide (midnight today ≤ v.created_at)).map
    (·.user_id)).dedup).length

/-- Embedding of `public.get_platform_analytics(days_back)`, evaluated
with `CURRENT_DATE = today`.  The `days_back` parameter is declared by the
source with default 30 but never used in the body. -/
def get_platform_analytics (db : DB) (today : Int) (days_back : Int := 30) : AnalyticsRow :=
  let _ := days_back
  { total_users := (db.users.length : Nat)
    total_items := (db.items.length : Nat)
    total_views := (db.item_views.length : Nat)
    total_favorites := (db.favorites.length : Nat)
    total_messages := (db.messages.length : Nat)
    total_reports := (db.reports.length : Nat)
    active_users_today := (activeUsersToday db today : Nat)
    new_users_today := (db.users.countP fun u => decide (midnight today ≤ u.created_at) : Nat)
    new_items_today := (db.items.countP fun i => decide (midnight today ≤ i.created_at) : Nat)
    pending_reports := (db.reports.countP fun r => r.status == "pending" : Nat) }

/-! ## Access control: RLS policies, grants, `SECURITY DEFINER` -/

/-- The admin-email predicate of every `admin_settings`/`admin_logs`
policy: the email equals admin@opencycle.com, or the SQL LIKE pattern
anchored on both ends matches it against any prefix followed by the
suffix @admin.opencycle.com. -/
def is_admin_email (e : String) : Bool :=
  e == "admin@opencycle.com" || e.endsWith "@admin.opencycle.com"

/-- The `USING`/`WITH CHECK` clause shared by all four policies:
`EXISTS (SELECT 1 FROM users WHERE id = auth.uid() AND (email = … OR
email LIKE …))`.  `uid = none` is an unauthenticated caller
(`auth.uid()` is null, the `TO authenticated` role test fails). -/
def caller_is_admin (db : DB) (uid : Option Nat) : Bool :=
  match uid with
  | none => false
  | some u => db.users.any fun r => r.id == u && is_admin_email r.email

/-- A direct `SELECT * FROM admin_settings` by caller `uid`: row-level
security keeps the rows whose policy clause holds (all of them for an
admin, none otherwise), and an unauthenticated role sees nothing. -/
def select_admin_settings (db : DB) (uid : Option Nat) : List AdminSettingRow :=
  db.admin_settings.filter fun _ => caller_is_admin db uid

/-- A direct `SELECT * FROM admin_logs` by caller `uid`, filtered by the
"Only admins can view logs" policy. -/
def select_admin_logs (db : DB) (uid : Option Nat) : List AdminLogRow :=
  db.admin_logs.filter fun _ => caller_is_admin db uid

/-- A direct `INSERT INTO admin_logs` by caller `uid`: the "Only admins
can create logs" `WITH CHECK` clause rejects non-admins. -/
def insert_admin_log_direct (db : DB) (uid : Option Nat) (row : AdminLogRow) :
    Except String DB :=
  if caller_is_admin db uid then
    .ok { db with admin_logs := db.admin_logs ++ [row] }
  else .error "new row violates row-level security policy"

/-- The GRANT EXECUTE TO authenticated statements: any authenticated caller may
execute the four functions; the anonymous role may not. -/
def can_execute_granted (uid : Option Nat) : Bool :=
  uid.isSome

/-- Calling `public.get_platform_analytics` over the RPC boundary.  The
function is `SECURITY DEFINER`, so its body reads the tables with the
privileges of the definer: row-level security of the caller is not
applied inside. -/
def call_get_platform_analytics (db : DB) (uid : Option Nat) (today : Int)
    (days_back : Int := 30) : Except String AnalyticsRow :=
  if can_execute_granted uid then .ok (get_platform_analytics db today days_back)
  else .error "permission denied for function get_platform_analytics"

/-- Calling `public.get_user_growth_data` over the RPC boundary
(`SECURITY DEFINER`, granted to `authenticated`). -/
def call_get_user_growth_data (db : DB) (uid : Option Nat) (today : Int)
    (days_back : Int := 30) : Except String (List GrowthRow) :=
  if can_execute_granted uid then .ok (get_user_growth_data db today days_back)
  else .error "permission denied for function get_user_growth_data"

/-- Calling `public.get_category_distribution` over the RPC boundary
(`SECURITY DEFINER`, granted to `authenticated`). -/
def call_get_category_distribution (db : DB) (uid : Option Nat) :
    Except String (List CategoryRow) :=
  if can_execute_granted uid then get_category_distribution db
  else .error "permission denied for function get_category_distribution"

/-! ## `log_admin_action` -/

/-- Hexadecimal digit test for the `uuid` input cast. -/
def isHexDigit (c : Char) : Bool :=
  c.isDigit || (decide ('a' ≤ c) && decide (c ≤ 'f')) || (decide ('A' ≤ c) && decide (c ≤ 'F'))

/-- The `uuid` input cast on the canonical 8-4-4-4-12 hyphenated form
(the form the clients of the repository produce; PostgreSQL additionally
accepts brace/hyphen variants, which no claim needs). -/
def isValidUuid (s : String) : Bool :=
  decide (s.length = 36) &&
    (s.toList.enum.all fun p =>
      if p.1 = 8 ∨ p.1 = 13 ∨ p.1 = 18 ∨ p.1 = 23 then p.2 == '-' else isHexDigit p.2)

/-- The body of `public.log_admin_action`: one `INSERT INTO admin_logs`
recording the caller (`auth.uid()`), the action, the target reference,
the details, and the request metadata.  `SECURITY DEFINER`: the insert
runs with the privileges of the definer, so the "Only admins can create
logs" policy is not applied. -/
def log_admin_action_body (db : DB) (uid : Option Nat) (action_name : String)
    (target_type_param : Option String) (target_id_param : Option String)
    (details_param : Option String) (client_addr user_agent : Option String) : DB :=
  { db with admin_logs := db.admin_logs ++
      [{ admin_id := uid
         action := action_name
         target_type := target_type_param
         target_id := target_id_param
         details := details_param
         ip_address := client_addr
         user_agent := user_agent }] }

/-- Calling `public.log_admin_action` over the RPC boundary with a raw
string for the `uuid`-typed `target_id_param`.  The cast of a malformed
string fails before the body runs; an ungranted (unauthenticated)
caller is rejected; otherwise exactly one log row is appended. -/
def call_log_admin_action (db : DB) (uid : Option Nat) (action_name : String)
    (target_type_param : Option String) (raw_target_id : Option String)
    (details_param : Option String) (client_addr : Option String := none)
    (user_agent : Option String := none) : Except String DB :=
  if ¬ can_execute_granted uid then
    .error "permission denied for function log_admin_action"
  else
    match raw_target_id with
    | some s =>
      if isValidUuid s then
        .ok (log_admin_action_body db uid action_name target_type_param (some s)
          details_param client_addr user_agent)
      else .error "invalid input syntax for type uuid"
    | none =>
      .ok (log_admin_action_body db uid action_name target_type_param none
        details_param client_addr user_agent)

/-! ## Spec-side definitions and concrete example states -/

/-- Spec-side count: the number of users whose `created_at` falls on day
`d` (no window filter). -/
def usersCreatedOn (db : DB) (d : Int) : Int :=
  (db.users.countP fun u => decide (dateOf u.created_at = d) : Nat)

/-- The state `db` with every user created before the midnight of day
`start` removed. -/
def dropPreWindowUsers (db : DB) (start : Int) : DB :=
  { db with users := db.users.filter fun u => decide (midnight start ≤ u.created_at) }

/-- The rows `get_category_distribution` succeeds with: each group of
`category_counts` with its rounded percentage of the group total,
ordered by count descending. -/
def categoryRowsOf (db : DB) : List CategoryRow :=
  ((category_counts db).map fun p =>
    (⟨p.1, p.2, round2 ((p.2 / ((((category_counts db).map Prod.snd).sum : ℕ) : ℚ)) * 100)⟩ :
      CategoryRow)).mergeSort byCountDesc

/-- Example state: three users created on days -2, 0 and 1. -/
def dbGrowth : DB where
  users := [⟨1, "u1@example.com", -100000⟩, ⟨2, "u2@example.com", 0⟩, ⟨3, "u3@example.com", 90000⟩]
  items := []
  item_views := []
  favorites := []
  messages := []
  reports := []
  admin_settings := []
  admin_logs := []

/-- Example state: six available items in six distinct categories. -/
def dbSixCategories : DB where
  users := []
  items := [⟨1, "c1", true, 0⟩, ⟨2, "c2", true, 0⟩, ⟨3, "c3", true, 0⟩,
            ⟨4, "c4", true, 0⟩, ⟨5, "c5", true, 0⟩, ⟨6, "c6", true, 0⟩]
  item_views := []
  favorites := []
  messages := []
  reports := []
  admin_settings := []
  admin_logs := []

/-- The distribution rows of `dbSixCategories`: six rows of one item
each, every percentage rounded to 16.67. -/
def rowsSixCategories : List CategoryRow :=
  [⟨"c1", 1, 1667/100⟩, ⟨"c2", 1, 1667/100⟩, ⟨"c3", 1, 1667/100⟩,
   ⟨"c4", 1, 1667/100⟩, ⟨"c5", 1, 1667/100⟩, ⟨"c6", 1, 1667/100⟩]

/-- Example state: one authenticated non-admin user and one settings
row. -/
def dbBob : DB where
  users := [⟨1, "bob@example.com", 0⟩]
  items := []
  item_views := []
  favorites := []
  messages := []
  reports := []
  admin_settings := [⟨"site_name", "OpenCycle", none⟩]
  admin_logs := []

/-- Example state: one item present but marked unavailable. -/
def dbNoAvailable : DB where
  users := []
  items := [⟨1, "Books", false, 0⟩]
  item_views := []
  favorites := []
  messages := []
  reports := []
  admin_settings := []
  admin_logs := []

/-- Example state: one user who viewed an item today (day 1). -/
def dbViews : DB where
  users := [⟨1, "a@b.example", 0⟩]
  items := [⟨1, "Books", true, 0⟩]
  item_views := [⟨1, 1, 90000⟩, ⟨2, 1, 91000⟩]
  favorites := []
  messages := []
  reports := [⟨1, "pending", 0⟩]
  admin_settings := []
  admin_logs := []

/-! ## Lemmas: the growth series -/

theorem length_runningRows (f : Int → Int) (l : List Int) (acc : Int) :
    (runningRows f l acc).length = l.length := by
  induction l generalizing acc with
  | nil => rfl
  | cons d ds ih => simpa [runningRows] using ih _

theorem runningRows_get (f : Int → Int) :
    ∀ (l : List Int) (acc : Int) (i : Nat) (h1 : i < (runningRows f l acc).length)
      (h2 : i < l.length),
      (runningRows f l acc).get ⟨i, h1⟩ =
        ⟨l.get ⟨i, h2⟩, f (l.get ⟨i, h2⟩), acc + ((l.take (i + 1)).map f).sum⟩
  | [], _, i, _, h2 => absurd h2 (by simp)
  | d :: ds, acc, 0, _, _ => by simp [runningRows]
  | d :: ds, acc, i + 1, h1, h2 => by
    have h1s : i < (runningRows f ds (acc + f d)).length := by
      have := h1
      simp only [runningRows, List.length_cons] at this
      omega
    have h2s : i < ds.length := Nat.lt_of_succ_lt_succ h2
    have ih := runningRows_get f ds (acc + f d) i h1s h2s
    calc (runningRows f (d :: ds) acc).get ⟨i + 1, h1⟩
        = (runningRows f ds (acc + f d)).get ⟨i, h1s⟩ := rfl
      _ = ⟨ds.get ⟨i, h2s⟩, f (ds.get ⟨i, h2s⟩),
            acc + f d + ((ds.take (i + 1)).map f).sum⟩ := ih
      _ = ⟨(d :: ds).get ⟨i + 1, h2⟩, f ((d :: ds).get ⟨i + 1, h2⟩),
            acc + (((d :: ds).take (i + 1 + 1)).map f).sum⟩ := by
          simp [add_assoc]

theorem generateSeriesDates_length (start stop : Int) :
    (generateSeriesDates start stop).length = (stop - start + 1).toNat := by
  unfold generateSeriesDates
  rw [List.length_map, List.length_range]

theorem generateSeriesDates_get (start stop : Int) (i : Nat)
    (h : i < (generateSeriesDates start stop).length) :
    (generateSeriesDates start stop).get ⟨i, h⟩ = start + i := by
  unfold generateSeriesDates at *
  simp only [List.get_eq_getElem, List.getElem_map, List.getElem_range]

theorem midnight_le_of_le_dateOf {start t : Int} (h : start ≤ dateOf t) :
    midnight start ≤ t := by
  unfold midnight
  unfold dateOf secondsPerDay at *
  omega

theorem dailyNewUsers_in_window (users : List UserRow) {start d : Int} (hd : start ≤ d) :
    dailyNewUsers users start d =
      (users.countP fun u => decide (dateOf u.created_at = d) : Nat) := by
  unfold dailyNewUsers
  congr 1
  apply List.countP_congr
  intro u _
  by_cases h : dateOf u.created_at = d
  · have hm : midnight start ≤ u.created_at := midnight_le_of_le_dateOf (by omega)
    simp [h, hm]
  · simp [h]

theorem get_user_growth_data_length (db : DB) (today W : Int) :
    (get_user_growth_data db today W).length = (W + 1).toNat := by
  have h := length_runningRows (dailyNewUsers db.users (today - W))
    (generateSeriesDates (today - W) today) 0
  rw [generateSeriesDates_length] at h
  have e : today - (today - W) + 1 = W + 1 := by ring
  rw [e] at h
  exact h

theorem get_user_growth_data_get (db : DB) (today W : Int) (i : Nat)
    (h : i < (get_user_growth_data db today W).length) :
    (get_user_growth_data db today W).get ⟨i, h⟩ =
      ⟨today - W + i,
       dailyNewUsers db.users (today - W) (today - W + i),
       (((generateSeriesDates (today - W) today).take (i + 1)).map
         (dailyNewUsers db.users (today - W))).sum⟩ := by
  have hs : i < (generateSeriesDates (today - W) today).length := by
    have h2 := h
    rw [show (get_user_growth_data db today W).length
        = (generateSeriesDates (today - W) today).length from
      length_runningRows _ _ 0] at h2
    exact h2
  have key := runningRows_get (dailyNewUsers db.users (today - W))
    (generateSeriesDates (today - W) today) 0 i h hs
  rw [generateSeriesDates_get, zero_add] at key
  exact key

/-- C1: for every lookback window W ≥ 1 the user-growth series has
exactly W+1 rows; the row at index i is for calendar day today-W+i, so
the dates cover every day from today-W through today and increase by
exactly one day; each new_users counter equals the number of users whose
created_at falls on that day (zero when none); and each row after the
first has cumulative_users equal to the previous cumulative_users plus
its own new_users. -/
theorem growth_series_shape (db : DB) (today W : Int) (hW : 1 ≤ W) :
    (get_user_growth_data db today W).length = W.toNat + 1
    ∧ (∀ i (h : i < (get_user_growth_data db today W).length),
        ((get_user_growth_data db today W).get ⟨i, h⟩).date = today - W + i)
    ∧ (∀ i (h : i < (get_user_growth_data db today W).length),
        ((get_user_growth_data db today W).get ⟨i, h⟩).new_users
          = usersCreatedOn db (today - W + i))
    ∧ (∀ i (h1 : i + 1 < (get_user_growth_data db today W).length)
        (h0 : i < (get_user_growth_data db today W).length),
        ((get_user_growth_data db today W).get ⟨i + 1, h1⟩).cumulative_users
          = ((get_user_growth_data db today W).get ⟨i, h0⟩).cumulative_users
            + ((get_user_growth_data db today W).get ⟨i + 1, h1⟩).new_users) := by
  refine ⟨?_, ?_, ?_, ?_⟩
  · rw [get_user_growth_data_length]; omega
  · intro i h
    rw [get_user_growth_data_get db today W i h]
  · intro i h
    rw [get_user_growth_data_get db today W i h]
    show dailyNewUsers db.users (today - W) (today - W + i) = _
    rw [dailyNewUsers_in_window db.users (by omega : today - W ≤ today - W + i)]
    rfl
  · intro i h1 h0
    rw [get_user_growth_data_get db today W (i + 1) h1,
      get_user_growth_data_get db today W i h0]
    show (((generateSeriesDates (today - W) today).take (i + 1 + 1)).map
        (dailyNewUsers db.users (today - W))).sum = _
    have hs1 : i + 1 < ((generateSeriesDates (today - W) today).map
        (dailyNewUsers db.users (today - W))).length := by
      rw [List.length_map]
      have h2 := h1
      rw [show (get_user_growth_data db today W).length
          = (generateSeriesDates (today - W) today).length from
        length_runningRows _ _ 0] at h2
      exact h2
    rw [List.map_take, List.sum_take_succ _ (i + 1) hs1, List.map_take]
    congr 1
    have hs : i + 1 < (generateSeriesDates (today - W) today).length := by
      rw [List.length_map] at hs1; exact hs1
    simp only [List.get_eq_getElem, List.getElem_map]
    rw [show (generateSeriesDates (today - W) today)[i + 1] =
        (generateSeriesDates (today - W) today).get ⟨i + 1, hs⟩ from rfl,
      generateSeriesDates_get]

/-- Witness for C1 at a concrete state and window. -/
theorem growth_series_shape_witness :
    (1 : Int) ≤ 1 ∧ (get_user_growth_data dbGrowth 1 1).length = (1 : Int).toNat + 1 :=
  ⟨le_refl 1, (growth_series_shape dbGrowth 1 1 (le_refl 1)).1⟩

/-- C2 counterexample: with a window of -1 days the series is empty, not
a single-day series for today. -/
theorem growth_degenerate_counterexample :
    ¬ ((get_user_growth_data dbGrowth 0 (-1)).length = 1) := by decide

/-- C2 amended: a window of exactly 0 days produces a single-day series
for today only; a strictly negative window produces an empty series. -/
theorem growth_degenerate_window (db : DB) (today W : Int) (hW : W ≤ 0) :
    (W = 0 → get_user_growth_data db today W
      = [⟨today, usersCreatedOn db today, usersCreatedOn db today⟩])
    ∧ (W < 0 → get_user_growth_data db today W = []) := by
  constructor
  · intro h0
    subst h0
    have e : today - (0 : Int) = today := sub_zero today
    have hser : generateSeriesDates (today - 0) today = [today] := by
      unfold generateSeriesDates
      rw [e]
      norm_num
      rw [show List.range 1 = [0] from rfl]
      simp
    show runningRows (dailyNewUsers db.users (today - 0))
      (generateSeriesDates (today - 0) today) 0 = _
    rw [hser, e]
    show [(⟨today, dailyNewUsers db.users today today,
      0 + dailyNewUsers db.users today today⟩ : GrowthRow)] = _
    rw [zero_add, dailyNewUsers_in_window db.users (le_refl today)]
    rfl
  · intro hneg
    have hser : generateSeriesDates (today - W) today = [] := by
      unfold generateSeriesDates
      have hz : (today - (today - W) + 1).toNat = 0 := by omega
      rw [hz]
      rfl
    show runningRows (dailyNewUsers db.users (today - W))
      (generateSeriesDates (today - W) today) 0 = _
    rw [hser]
    rfl

/-- Witness for the amended C2 at a concrete state, window 0. -/
theorem growth_degenerate_window_witness :
    (0 : Int) ≤ 0 ∧ get_user_growth_data dbGrowth 1 0
      = [⟨1, usersCreatedOn dbGrowth 1, usersCreatedOn dbGrowth 1⟩] :=
  ⟨le_refl 0, (growth_degenerate_window dbGrowth 1 0 (le_refl 0)).1 rfl⟩

/-- C10: the cumulative totals are window-relative: the first row has
cumulative_users equal to its own new_users, and removing every user
created before the window start leaves the whole series unchanged. -/
theorem growth_window_relative (db : DB) (today W : Int) (hW : 1 ≤ W) :
    (∀ h : 0 < (get_user_growth_data db today W).length,
      ((get_user_growth_data db today W).get ⟨0, h⟩).cumulative_users
        = ((get_user_growth_data db today W).get ⟨0, h⟩).new_users)
    ∧ get_user_growth_data (dropPreWindowUsers db (today - W)) today W
        = get_user_growth_data db today W := by
  constructor
  · intro h
    rw [get_user_growth_data_get db today W 0 h]
    show (((generateSeriesDates (today - W) today).take (0 + 1)).map
        (dailyNewUsers db.users (today - W))).sum = _
    have hs0 : 0 < ((generateSeriesDates (today - W) today).map
        (dailyNewUsers db.users (today - W))).length := by
      rw [List.length_map]
      have h2 := h
      rw [show (get_user_growth_data db today W).length
          = (generateSeriesDates (today - W) today).length from
        length_runningRows _ _ 0] at h2
      exact h2
    have hs : 0 < (generateSeriesDates (today - W) today).length := by
      rw [List.length_map] at hs0; exact hs0
    rw [List.map_take, List.sum_take_succ _ 0 hs0]
    simp only [List.take_zero, List.sum_nil, zero_add, List.get_eq_getElem,
      List.getElem_map]
    rw [show (generateSeriesDates (today - W) today)[0] =
        (generateSeriesDates (today - W) today).get ⟨0, hs⟩ from rfl,
      generateSeriesDates_get]
  · show runningRows (dailyNewUsers (dropPreWindowUsers db (today - W)).users (today - W))
        (generateSeriesDates (today - W) today) 0
      = runningRows (dailyNewUsers db.users (today - W))
        (generateSeriesDates (today - W) today) 0
    have hf : dailyNewUsers (dropPreWindowUsers db (today - W)).users (today - W)
        = dailyNewUsers db.users (today - W) := by
      funext d
      show dailyNewUsers (db.users.filter fun u =>
        decide (midnight (today - W) ≤ u.created_at)) (today - W) d = _
      unfold dailyNewUsers
      rw [List.countP_filter]
      congr 1
      congr 1
      funext u
      by_cases hm : midnight (today - W) ≤ u.created_at <;> simp [hm]
    rw [hf]

/-- Witness for C10 at a concrete state with a pre-window user. -/
theorem growth_window_relative_witness :
    (1 : Int) ≤ 1 ∧ get_user_growth_data (dropPreWindowUsers dbGrowth (1 - 1)) 1 1
      = get_user_growth_data dbGrowth 1 1 :=
  ⟨le_refl 1, (growth_window_relative dbGrowth 1 1 (le_refl 1)).2⟩

/-! ## Lemmas: the category distribution -/

theorem dedup_toFinset {α : Type} [DecidableEq α] (l : List α) :
    l.dedup.toFinset = l.toFinset := by
  ext x
  simp [List.mem_toFinset, List.mem_dedup]

theorem sum_map_count_dedup {α : Type} [DecidableEq α] (l : List α) :
    (l.dedup.map (fun c => l.count c)).sum = l.length := by
  have h1 : (l.dedup).toFinset.sum (fun c => l.count c)
      = (l.dedup.map (fun c => l.count c)).sum :=
    List.sum_toFinset _ (List.nodup_dedup l)
  rw [dedup_toFinset] at h1
  rw [← h1, List.sum_toFinset_count_eq_length]

theorem categoryItemCount_eq_count (db : DB) (c : String) :
    categoryItemCount db c = ((availableItems db).map (·.category)).count c := by
  unfold categoryItemCount
  rw [List.count, List.countP_map]
  rfl

theorem sum_category_counts (db : DB) :
    ((category_counts db).map Prod.snd).sum = (availableItems db).length := by
  unfold category_counts
  rw [List.map_map]
  have e1 : (Prod.snd ∘ fun c => (c, categoryItemCount db c)) = categoryItemCount db := rfl
  rw [e1]
  unfold availableCategories
  have e2 : ((((availableItems db).map (·.category)).dedup).map (categoryItemCount db))
      = (((availableItems db).map (·.category)).dedup).map
        (fun c => ((availableItems db).map (·.category)).count c) :=
    List.map_congr_left (fun c _ => categoryItemCount_eq_count db c)
  rw [e2, sum_map_count_dedup, List.length_map]

theorem categoryItemCount_pos (db : DB) {c : String} (hc : c ∈ availableCategories db) :
    0 < categoryItemCount db c := by
  unfold availableCategories at hc
  rw [List.mem_dedup] at hc
  rcases List.mem_map.mp hc with ⟨i, hi, rfl⟩
  unfold categoryItemCount
  rw [List.countP_pos_iff]
  exact ⟨i, hi, by simp⟩

theorem category_counts_total_pos (db : DB) (hne : category_counts db ≠ []) :
    0 < ((category_counts db).map Prod.snd).sum := by
  cases hcc : category_counts db with
  | nil => exact absurd hcc hne
  | cons p rest =>
    have hp : p ∈ category_counts db := by rw [hcc]; exact List.mem_cons_self _ _
    obtain ⟨c, hc, hpc⟩ := List.mem_map.mp hp
    have hpos : 0 < p.2 := by
      rw [← hpc]
      exact categoryItemCount_pos db hc
    rw [List.map_cons, List.sum_cons]
    omega

theorem pctRows_ok (total : ℚ) (h : total ≠ 0) :
    ∀ cc : List (String × Nat),
      pctRows total cc = .ok (cc.map fun p =>
        (⟨p.1, p.2, round2 (((p.2 : ℚ) / total) * 100)⟩ : CategoryRow))
  | [] => rfl
  | p :: rest => by
    have ih := pctRows_ok total h rest
    simp [pctRows, qdiv, h, ih]

theorem get_category_distribution_eq (db : DB) :
    get_category_distribution db = .ok (categoryRowsOf db) := by
  by_cases hcc : category_counts db = []
  · unfold get_category_distribution categoryRowsOf
    rw [hcc]
    simp [pctRows]
  · have h0 : ((((category_counts db).map Prod.snd).sum : ℕ) : ℚ) ≠ 0 := by
      have := category_counts_total_pos db hcc
      exact_mod_cast this.ne'
    unfold get_category_distribution categoryRowsOf
    rw [pctRows_ok _ h0]

/-- C3: the category distribution always returns rows (one per distinct
category among available items, with no duplicates), each row carrying
the count of available items of its category and the percentage of the
total available-item count rounded to 2 decimals, ordered descending by
count. -/
theorem category_distribution_rows (db : DB) :
    ∃ rows, get_category_distribution db = .ok rows
      ∧ (rows.map (·.category)).Perm (availableCategories db)
      ∧ (rows.map (·.category)).Nodup
      ∧ (∀ r ∈ rows, r.item_count = categoryItemCount db r.category
          ∧ r.percentage
            = round2 ((r.item_count : ℚ) / ((availableItems db).length : ℚ) * 100))
      ∧ rows.Pairwise (fun a b => b.item_count ≤ a.item_count) := by
  have hperm : (categoryRowsOf db).Perm ((category_counts db).map (fun p =>
      (⟨p.1, p.2, round2 ((p.2 / ((((category_counts db).map Prod.snd).sum : ℕ) : ℚ)) * 100)⟩ :
        CategoryRow))) := List.mergeSort_perm _ _
  have hcatmap : (((category_counts db).map (fun p =>
      (⟨p.1, p.2, round2 ((p.2 / ((((category_counts db).map Prod.snd).sum : ℕ) : ℚ)) * 100)⟩ :
        CategoryRow))).map (·.category)) = availableCategories db := by
    rw [List.map_map]
    show (category_counts db).map Prod.fst = _
    unfold category_counts
    rw [List.map_map]
    show (availableCategories db).map (fun c => c) = _
    exact List.map_id _
  refine ⟨categoryRowsOf db, get_category_distribution_eq db, ?_, ?_, ?_, ?_⟩
  · have h2 := hperm.map (·.category)
    rw [hcatmap] at h2
    exact h2
  · have h2 := hperm.map (·.category)
    rw [hcatmap] at h2
    exact h2.nodup_iff.mpr (List.nodup_dedup _)
  · intro r hr
    have hr2 := hperm.mem_iff.mp hr
    obtain ⟨p, hp, rfl⟩ := List.mem_map.mp hr2
    unfold category_counts at hp
    obtain ⟨c, hc, rfl⟩ := List.mem_map.mp hp
    refine ⟨rfl, ?_⟩
    show round2 _ = round2 _
    rw [sum_category_counts db]
  · have hs := @List.sorted_mergeSort CategoryRow byCountDesc
      (fun a b c hab hbc => by
        simp only [byCountDesc, decide_eq_true_eq] at *
        omega)
      (fun a b => by
        simp only [byCountDesc, Bool.or_eq_true, decide_eq_true_eq]
        omega)
      ((category_counts db).map (fun p =>
        (⟨p.1, p.2, round2 ((p.2 / ((((category_counts db).map Prod.snd).sum : ℕ) : ℚ)) * 100)⟩ :
          CategoryRow)))
    exact hs.imp (fun h => by simpa [byCountDesc] using h)

/-- C7: with zero available items the category distribution returns the
defined empty result instead of raising a division-by-zero error. -/
theorem category_distribution_no_available (db : DB) (h : availableItems db = []) :
    get_category_distribution db = .ok [] := by
  have hcc : category_counts db = [] := by
    unfold category_counts availableCategories
    rw [h]
    rfl
  rw [get_category_distribution_eq db]
  unfold categoryRowsOf
  rw [hcc]
  simp

/-- Witness for C7 at a state with one unavailable item. -/
theorem category_distribution_no_available_witness :
    availableItems dbNoAvailable = [] ∧ get_category_distribution dbNoAvailable = .ok [] :=
  ⟨rfl, category_distribution_no_available dbNoAvailable rfl⟩

/-! ## Lemmas: rounding error bounds -/

theorem abs_floor_half_sub_le (y : ℚ) : |((⌊y + 1/2⌋ : ℤ) : ℚ) - y| ≤ 1/2 := by
  have h1 : ((⌊y + 1/2⌋ : ℤ) : ℚ) ≤ y + 1/2 := Int.floor_le _
  have h2 : y + 1/2 < ((⌊y + 1/2⌋ : ℤ) : ℚ) + 1 := Int.lt_floor_add_one _
  rw [abs_le]
  constructor <;> linarith

theorem abs_round2_sub_le (q : ℚ) : |round2 q - q| ≤ 1/200 := by
  unfold round2
  by_cases h : 0 ≤ q
  · rw [if_pos h]
    have hb := abs_floor_half_sub_le (q * 100)
    rw [show ((⌊q * 100 + 1/2⌋ : ℤ) : ℚ) / 100 - q
        = (((⌊q * 100 + 1/2⌋ : ℤ) : ℚ) - q * 100) / 100 by ring, abs_div,
      abs_of_pos (by norm_num : (0:ℚ) < 100)]
    linarith
  · rw [if_neg h]
    have hb := abs_floor_half_sub_le (-q * 100)
    rw [show -(((⌊-q * 100 + 1/2⌋ : ℤ) : ℚ) / 100) - q
        = -((((⌊-q * 100 + 1/2⌋ : ℤ) : ℚ) - -q * 100) / 100) by ring, abs_neg, abs_div,
      abs_of_pos (by norm_num : (0:ℚ) < 100)]
    linarith

theorem list_sum_abs_bound {α : Type} (c : ℚ) (f g : α → ℚ) :
    ∀ l : List α, (∀ a ∈ l, |f a - g a| ≤ c) →
      |(l.map f).sum - (l.map g).sum| ≤ (l.length : ℚ) * c
  | [] => by intro h; simp
  | a :: l => by
    intro h
    have ih := list_sum_abs_bound c f g l (fun x hx => h x (List.mem_cons_of_mem _ hx))
    have ha := h a (List.mem_cons_self _ _)
    simp only [List.map_cons, List.sum_cons, List.length_cons]
    rw [show f a + (l.map f).sum - (g a + (l.map g).sum)
        = (f a - g a) + ((l.map f).sum - (l.map g).sum) by ring]
    have habs := abs_add (f a - g a) ((l.map f).sum - (l.map g).sum)
    push_cast
    linarith

/-- C4 amended: when at least one available item exists the returned
percentages sum to 100 up to a rounding error of at most 0.005 per
returned row (so up to n/200 for n rows); the fixed tolerance 0.01 of
the original claim only covers distributions with at most two rows. -/
theorem category_percentage_sum_bound (db : DB) (rows : List CategoryRow)
    (hrows : get_category_distribution db = .ok rows) (hne : rows ≠ []) :
    |(rows.map (·.percentage)).sum - 100| ≤ (rows.length : ℚ) / 200 := by
  rw [get_category_distribution_eq db] at hrows
  have hrows2 : categoryRowsOf db = rows := by injection hrows
  subst hrows2
  have hccne : category_counts db ≠ [] := by
    intro h
    apply hne
    unfold categoryRowsOf
    rw [h]
    simp
  have hT0 : ((((category_counts db).map Prod.snd).sum : ℕ) : ℚ) ≠ 0 := by
    exact_mod_cast (category_counts_total_pos db hccne).ne'
  have hpermsum : ((categoryRowsOf db).map (·.percentage)).sum
      = (((category_counts db).map (fun p =>
          (⟨p.1, p.2, round2 ((p.2 /
            ((((category_counts db).map Prod.snd).sum : ℕ) : ℚ)) * 100)⟩ :
            CategoryRow))).map (·.percentage)).sum :=
    ((List.mergeSort_perm _ byCountDesc).map (·.percentage)).sum_eq
  have hlen : (categoryRowsOf db).length = (category_counts db).length := by
    have := (List.mergeSort_perm ((category_counts db).map (fun p =>
      (⟨p.1, p.2, round2 ((p.2 /
        ((((category_counts db).map Prod.snd).sum : ℕ) : ℚ)) * 100)⟩ :
        CategoryRow))) byCountDesc).length_eq
    unfold categoryRowsOf
    rw [this, List.length_map]
  rw [hpermsum, hlen, List.map_map]
  show |((category_counts db).map (fun p => round2 (((p.2 : ℚ) /
      ((((category_counts db).map Prod.snd).sum : ℕ) : ℚ)) * 100))).sum - 100|
    ≤ ((category_counts db).length : ℚ) / 200
  have hbound := list_sum_abs_bound (1/200)
    (fun p : String × Nat => round2 (((p.2 : ℚ) /
      ((((category_counts db).map Prod.snd).sum : ℕ) : ℚ)) * 100))
    (fun p : String × Nat => ((p.2 : ℚ) /
      ((((category_counts db).map Prod.snd).sum : ℕ) : ℚ)) * 100)
    (category_counts db) (fun p _ => abs_round2_sub_le _)
  have hexact : ((category_counts db).map (fun p : String × Nat => ((p.2 : ℚ) /
      ((((category_counts db).map Prod.snd).sum : ℕ) : ℚ)) * 100)).sum = 100 := by
    have h1 : ((category_counts db).map (fun p : String × Nat => ((p.2 : ℚ) /
        ((((category_counts db).map Prod.snd).sum : ℕ) : ℚ)) * 100)).sum
        = ((category_counts db).map (fun p : String × Nat => (p.2 : ℚ))).sum
          * (100 / ((((category_counts db).map Prod.snd).sum : ℕ) : ℚ)) := by
      rw [← List.sum_map_mul_right]
      congr 1
      exact List.map_congr_left (fun p _ => by ring)
    have h2 : ((category_counts db).map (fun p : String × Nat => (p.2 : ℚ))).sum
        = ((((category_counts db).map Prod.snd).sum : ℕ) : ℚ) := by
      rw [show ((category_counts db).map (fun p : String × Nat => ((p.2 : ℕ) : ℚ)))
          = (((category_counts db).map Prod.snd).map (fun n : ℕ => (n : ℚ))) by
        rw [List.map_map]; rfl]
      exact (Nat.cast_list_sum _).symm
    rw [h1, h2]
    rw [mul_comm, div_mul_eq_mul_div, mul_div_assoc, div_self hT0, mul_one]
  rw [hexact] at hbound
  rw [show ((category_counts db).length : ℚ) / 200
      = ((category_counts db).length : ℚ) * (1/200) by ring]
  exact hbound

theorem category_distribution_six_eval :
    get_category_distribution dbSixCategories = .ok rowsSixCategories := by
  rw [get_category_distribution_eq]
  have hcc : category_counts dbSixCategories =
      [("c1",1),("c2",1),("c3",1),("c4",1),("c5",1),("c6",1)] := by decide
  unfold categoryRowsOf
  rw [hcc]
  have hr : round2 ((((1:ℕ) : ℚ) / (((6:ℕ) : ℚ)) ) * 100) = 1667/100 := by
    unfold round2
    rw [if_pos (by norm_num)]
    rw [show (((1:ℕ) : ℚ) / (((6:ℕ) : ℚ)) ) * 100 * 100 + 1/2 = 10003/6 by norm_num]
    rw [show ⌊(10003/6 : ℚ)⌋ = 1667 by norm_num [Int.floor_eq_iff]]
    norm_num
  rw [show ((List.map Prod.snd
      [("c1",1),("c2",1),("c3",1),("c4",1),("c5",1),("c6",1)]).sum : ℕ) = 6 by decide]
  simp only [List.map_cons, List.map_nil, hr]
  rw [List.mergeSort_of_sorted (by decide)]
  rfl

/-- C4 counterexample: with six available items in six distinct
categories every percentage rounds to 16.67, the sum of the returned
percentages is 100.02, and its deviation from 100 exceeds the claimed
tolerance 0.01. -/
theorem category_percentage_sum_counterexample :
    get_category_distribution dbSixCategories = .ok rowsSixCategories
    ∧ (rowsSixCategories.map (·.percentage)).sum = 5001 / 50
    ∧ ¬ (|(5001 / 50 : ℚ) - 100| ≤ 1 / 100) :=
  ⟨category_distribution_six_eval, by norm_num [rowsSixCategories], by norm_num [abs_le]⟩

/-- Witness for the amended C4 at the six-category state. -/
theorem category_percentage_sum_bound_witness :
    rowsSixCategories ≠ []
    ∧ |(rowsSixCategories.map (·.percentage)).sum - 100|
        ≤ ((rowsSixCategories.length : ℕ) : ℚ) / 200 :=
  ⟨by simp [rowsSixCategories],
   category_percentage_sum_bound dbSixCategories rowsSixCategories
     category_distribution_six_eval (by simp [rowsSixCategories])⟩

/-! ## Lemmas: the platform snapshot -/

theorem activeUsersToday_le_total (db : DB) (today : Int)
    (hfk : ∀ v ∈ db.item_views, v.user_id ∈ db.users.map (·.id)) :
    activeUsersToday db today ≤ db.users.length := by
  unfold activeUsersToday
  have h1 : (((db.item_views.filter fun v => decide (midnight today ≤ v.created_at)).map
      (·.user_id))).dedup.length
      = (((db.item_views.filter fun v => decide (midnight today ≤ v.created_at)).map
        (·.user_id))).toFinset.card :=
    (List.card_toFinset _).symm
  have hsub : (((db.item_views.filter fun v => decide (midnight today ≤ v.created_at)).map
      (·.user_id))).toFinset ⊆ (db.users.map (·.id)).toFinset := by
    intro x hx
    rw [List.mem_toFinset] at hx ⊢
    obtain ⟨v, hv, rfl⟩ := List.mem_map.mp hx
    exact hfk v (List.mem_of_mem_filter hv)
  calc (((db.item_views.filter fun v => decide (midnight today ≤ v.created_at)).map
      (·.user_id))).dedup.length
      = (((db.item_views.filter fun v => decide (midnight today ≤ v.created_at)).map
        (·.user_id))).toFinset.card := h1
    _ ≤ (db.users.map (·.id)).toFinset.card := Finset.card_le_card hsub
    _ ≤ (db.users.map (·.id)).length := List.toFinset_card_le _
    _ = db.users.length := List.length_map _ _

/-- C5: when every item view references an existing user, every counter
of the platform snapshot is nonnegative and the count of distinct
viewers active today is at most the total user count. -/
theorem platform_analytics_invariants (db : DB) (today : Int)
    (hfk : ∀ v ∈ db.item_views, v.user_id ∈ db.users.map (·.id)) :
    0 ≤ (get_platform_analytics db today).total_users
    ∧ 0 ≤ (get_platform_analytics db today).total_items
    ∧ 0 ≤ (get_platform_analytics db today).total_views
    ∧ 0 ≤ (get_platform_analytics db today).total_favorites
    ∧ 0 ≤ (get_platform_analytics db today).total_messages
    ∧ 0 ≤ (get_platform_analytics db today).total_reports
    ∧ 0 ≤ (get_platform_analytics db today).active_users_today
    ∧ 0 ≤ (get_platform_analytics db today).new_users_today
    ∧ 0 ≤ (get_platform_analytics db today).new_items_today
    ∧ 0 ≤ (get_platform_analytics db today).pending_reports
    ∧ (get_platform_analytics db today).active_users_today
        ≤ (get_platform_analytics db today).total_users :=
  ⟨Int.natCast_nonneg _, Int.natCast_nonneg _, Int.natCast_nonneg _,
   Int.natCast_nonneg _, Int.natCast_nonneg _, Int.natCast_nonneg _,
   Int.natCast_nonneg _, Int.natCast_nonneg _, Int.natCast_nonneg _,
   Int.natCast_nonneg _,
   by
    show ((activeUsersToday db today : Nat) : Int) ≤ ((db.users.length : Nat) : Int)
    exact_mod_cast activeUsersToday_le_total db today hfk⟩

/-- Witness for C5 at a concrete state with views referencing users. -/
theorem platform_analytics_invariants_witness :
    (∀ v ∈ dbViews.item_views, v.user_id ∈ dbViews.users.map (·.id))
    ∧ (get_platform_analytics dbViews 1).active_users_today
        ≤ (get_platform_analytics dbViews 1).total_users :=
  ⟨by decide,
   (platform_analytics_invariants dbViews 1 (by decide)).2.2.2.2.2.2.2.2.2.2⟩

/-- C8: a second run of the platform snapshot that sees the same state
and the same date (no intervening writes) returns identical counters;
the snapshot itself only reads. -/
theorem platform_analytics_idempotent (db db2 : DB) (today : Int) (h : db2 = db) :
    get_platform_analytics db2 today = get_platform_analytics db today := by
  rw [h]

/-- Witness for C8 at a concrete state. -/
theorem platform_analytics_idempotent_witness :
    get_platform_analytics dbViews 1 = get_platform_analytics dbViews 1 :=
  platform_analytics_idempotent dbViews dbViews 1 rfl

/-! ## Access control and log-action theorems -/

/-- C6 counterexample: an authenticated caller whose email satisfies no
admin predicate still obtains platform analytics results and appends a
log row through the granted SECURITY DEFINER functions. -/
theorem admin_gate_counterexample :
    caller_is_admin dbBob (some 1) = false
    ∧ call_get_platform_analytics dbBob (some 1) 0
        = .ok (get_platform_analytics dbBob 0)
    ∧ call_log_admin_action dbBob (some 1) "update_setting" none none none
        = .ok (log_admin_action_body dbBob (some 1) "update_setting" none none none none none)
    ∧ (log_admin_action_body dbBob (some 1) "update_setting"
        none none none none none).admin_logs.length
      = dbBob.admin_logs.length + 1 :=
  ⟨by decide, rfl, rfl, rfl⟩

/-- C6 amended: the admin-email predicate gates only direct table access
to admin_settings and admin_logs (selects return nothing and direct
inserts are rejected for non-admins), while the four functions are
granted to every authenticated caller and run SECURITY DEFINER, so any
authenticated caller obtains analytics results and writes log rows;
only unauthenticated callers are refused. -/
theorem admin_gating_scope (db : DB) (uid : Option Nat) (today : Int)
    (hna : caller_is_admin db uid = false) :
    select_admin_settings db uid = []
    ∧ select_admin_logs db uid = []
    ∧ (∀ row, insert_admin_log_direct db uid row
        = .error "new row violates row-level security policy")
    ∧ (uid = none →
        call_get_platform_analytics db uid today
          = .error "permission denied for function get_platform_analytics"
        ∧ call_get_user_growth_data db uid today
          = .error "permission denied for function get_user_growth_data"
        ∧ call_get_category_distribution db uid
          = .error "permission denied for function get_category_distribution"
        ∧ (∀ a, call_log_admin_action db uid a none none none
          = .error "permission denied for function log_admin_action"))
    ∧ (∀ u, uid = some u →
        call_get_platform_analytics db uid today = .ok (get_platform_analytics db today)
        ∧ call_get_user_growth_data db uid today = .ok (get_user_growth_data db today 30)
        ∧ call_get_category_distribution db uid = get_category_distribution db) := by
  refine ⟨?_, ?_, ?_, ?_, ?_⟩
  · unfold select_admin_settings
    simp [hna]
  · unfold select_admin_logs
    simp [hna]
  · intro row
    unfold insert_admin_log_direct
    simp [hna]
  · rintro rfl
    exact ⟨rfl, rfl, rfl, fun a => rfl⟩
  · rintro u rfl
    exact ⟨rfl, rfl, rfl⟩

/-- Witness for the amended C6 with an authenticated non-admin. -/
theorem admin_gating_scope_witness :
    caller_is_admin dbBob (some 1) = false
    ∧ select_admin_settings dbBob (some 1) = [] :=
  ⟨by decide, (admin_gating_scope dbBob (some 1) 0 (by decide)).1⟩

/-- C9 counterexample: a malformed target id fails the uuid input cast,
so the call is rejected and no log row with a null target is appended. -/
theorem log_malformed_target_counterexample :
    call_log_admin_action dbBob (some 1) "resolve_report" (some "report")
      (some "not-a-uuid") none
      = .error "invalid input syntax for type uuid"
    ∧ (call_log_admin_action dbBob (some 1) "resolve_report" (some "report")
        (some "not-a-uuid") none).isOk = false := by
  constructor
  · rfl
  · rfl

/-- C9 amended: an absent target id appends exactly one row with a null
target_id, a valid uuid appends exactly one row carrying it, and a
malformed target id is rejected at the uuid cast with nothing
appended. -/
theorem log_admin_action_target_behavior (db : DB) (u : Nat) (a : String)
    (tt : Option String) (det : Option String) (s : String) :
    call_log_admin_action db (some u) a tt none det
      = .ok (log_admin_action_body db (some u) a tt none det none none)
    ∧ (log_admin_action_body db (some u) a tt none det none none).admin_logs
      = db.admin_logs ++ [⟨some u, a, tt, none, det, none, none⟩]
    ∧ call_log_admin_action db (some u) a tt (some s) det
      = (if isValidUuid s
          then .ok (log_admin_action_body db (some u) a tt (some s) det none none)
          else .error "invalid input syntax for type uuid") := by
  refine ⟨rfl, rfl, ?_⟩
  rfl
